import Mathlib

/-!
Shallow embedding of the order-lifecycle simulation engine of
`sales_generator.py` (repository `arq_big_data2`).

Modelling conventions, used consistently below:
* Wall-clock times and durations (Python floats from `time.time()` and
  `random.uniform`) are rationals (`ℚ`).  `datetime.utcnow()` timestamps are
  modelled by the current wall-clock value.
* Randomness is made explicit: every call the Python code makes into the
  `random` module corresponds to one field of an oracle record supplied to the
  embedded function.  `random.randint(a, b)` reduces the supplied natural into
  the inclusive range `[a, b]`; `random.choice(xs)` reduces the supplied
  natural modulo `xs.length`, so it always picks an element of `xs` — exactly
  the set of values the Python call can produce.  `random.random()` and
  `random.uniform` outcomes are supplied directly as rationals.
* Python dicts are insertion-ordered association lists; assigning to an
  existing key keeps its position, `del` removes it.
* Fallible Python code (a `list.index` that can raise `ValueError`, a dict
  subscript that can raise `KeyError`) is embedded in `Option`: `none` is an
  uncaught exception.
-/

/-- One entry of the `PRODUCTS` catalog: identifier, display name and the
price range from which unit prices are drawn. -/
structure Product where
  id : String
  name : String
  price_lo : ℚ
  price_hi : ℚ
deriving DecidableEq

/-- The product catalog (`PRODUCTS`). -/
def PRODUCTS : List Product := [
  ⟨"PROD-001", "Wireless Bluetooth Headphones", 29.99, 199.99⟩,
  ⟨"PROD-002", "Smart Watch", 99.99, 499.99⟩,
  ⟨"PROD-003", "Laptop Stand", 19.99, 89.99⟩,
  ⟨"PROD-004", "USB-C Cable", 9.99, 29.99⟩,
  ⟨"PROD-005", "Mechanical Keyboard", 59.99, 299.99⟩,
  ⟨"PROD-006", "Wireless Mouse", 19.99, 129.99⟩,
  ⟨"PROD-007", "Phone Case", 14.99, 49.99⟩,
  ⟨"PROD-008", "Portable Charger", 24.99, 79.99⟩,
  ⟨"PROD-009", "LED Desk Lamp", 29.99, 89.99⟩,
  ⟨"PROD-010", "Webcam HD", 39.99, 199.99⟩,
  ⟨"PROD-011", "External Hard Drive", 49.99, 199.99⟩,
  ⟨"PROD-012", "Monitor 27 inch", 199.99, 699.99⟩,
  ⟨"PROD-013", "Gaming Chair", 149.99, 499.99⟩,
  ⟨"PROD-014", "Desk Organizer", 12.99, 39.99⟩,
  ⟨"PROD-015", "Bluetooth Speaker", 29.99, 249.99⟩]

/-- `PAYMENT_METHODS`. -/
def PAYMENT_METHODS : List String :=
  ["credit_card", "debit_card", "paypal", "apple_pay", "google_pay", "bank_transfer"]

/-- `ORDER_STATUS_FLOW`: the ordered lifecycle
pending → confirmed → processing → shipped. -/
def ORDER_STATUS_FLOW : List String := ["pending", "confirmed", "processing", "shipped"]

/-- `STATUS_TRANSITION_TIMES`: dwell-time ranges, in seconds, keyed by the
state an order is leaving.  Note that neither "shipped" nor "cancelled" has an
entry. -/
def STATUS_TRANSITION_TIMES : List (String × (ℚ × ℚ)) :=
  [("pending", (10, 30)), ("confirmed", (15, 45)), ("processing", (20, 60))]

/-- `CANCELLATION_PROBABILITY` (0.08). -/
def CANCELLATION_PROBABILITY : ℚ := 8 / 100

/-- `CANCELLATION_REASONS`: per-state reason sets. -/
def CANCELLATION_REASONS : List (String × List String) :=
  [("pending", ["payment_failed", "payment_declined", "customer_cancelled", "fraud_suspected"]),
   ("confirmed", ["inventory_unavailable", "customer_cancelled", "payment_verification_failed", "address_invalid"]),
   ("processing", ["customer_cancelled", "inventory_damaged", "shipping_address_unreachable", "customer_requested_cancellation"])]

/-- A shipping address as produced by the Faker-based `generate_address`
(field values are irrelevant to the engine; the oracle supplies them). -/
structure Address where
  street : String
  city : String
  state : String
  zip_code : String
  country : String
deriving DecidableEq

/-- The order dict.  `last_status_change` and `transition_time` are added by
the event loop right after `generate_sale` returns; `cancellation_reason` is
absent (`none`) until `cancel_order` sets it. -/
structure Order where
  order_id : String
  timestamp : ℚ
  product_id : String
  product_name : String
  quantity : Nat
  price : ℚ
  total : ℚ
  customer_id : String
  customer_email : String
  payment_method : String
  shipping_address : Address
  status : String
  last_status_change : ℚ
  transition_time : ℚ
  cancellation_reason : Option String
deriving DecidableEq

/-- Model of `random.randint(a, b)` (both bounds inclusive): the oracle's
natural `n` is reduced into `[a, b]`. -/
def randint (a b n : Nat) : Nat := a + n % (b + 1 - a)

/-- Model of `random.choice(xs)`: the oracle's natural picks an index modulo
`xs.length`, so for nonempty `xs` the result is always an element of `xs`. -/
def randChoice {α : Type} (xs : List α) (d : α) (n : Nat) : α :=
  xs.getD (n % xs.length) d

/-- Python's `round(x, 2)` on the exact rational value. -/
def round2 (x : ℚ) : ℚ := (round (x * 100) : ℤ) / 100

/-- `generate_order_id`: `ORD-` followed by `random.randint(10000000, 99999999)`.
The draw is random; nothing checks it against previously issued identifiers. -/
def generate_order_id (n : Nat) : String :=
  "ORD-" ++ toString (randint 10000000 99999999 n)

/-- `generate_customer_id`. -/
def generate_customer_id (n : Nat) : String :=
  "CUST-" ++ toString (randint 100000 999999 n)

/-- The random draws consumed by one call of `generate_sale`. -/
structure SaleDraw where
  productChoice : Nat
  quantityDraw : Nat
  priceDraw : ℚ
  orderIdDraw : Nat
  customerIdDraw : Nat
  email : String
  paymentChoice : Nat
  address : Address
deriving DecidableEq

/-- Fallback product for `randChoice` (never used: `PRODUCTS` is nonempty). -/
def defaultProduct : Product := ⟨"", "", 0, 0⟩

/-- `generate_sale`: build a fresh sale dict, always with status "pending".
`now` models `datetime.utcnow()`.  The tracking fields `last_status_change`
and `transition_time` are not yet meaningful (the loop sets them immediately
after calling this). -/
def generate_sale (d : SaleDraw) (now : ℚ) : Order :=
  let product := randChoice PRODUCTS defaultProduct d.productChoice
  let quantity := randint 1 5 d.quantityDraw
  let unit_price := round2 d.priceDraw
  let total := round2 (quantity * unit_price)
  { order_id := generate_order_id d.orderIdDraw
    timestamp := now
    product_id := product.id
    product_name := product.name
    quantity := quantity
    price := unit_price
    total := total
    customer_id := generate_customer_id d.customerIdDraw
    customer_email := d.email
    payment_method := randChoice PAYMENT_METHODS "" d.paymentChoice
    shipping_address := d.address
    status := "pending"
    last_status_change := 0
    transition_time := 0
    cancellation_reason := none }

/-- `get_next_status`: `ORDER_STATUS_FLOW.index(current_status)` raises
`ValueError` (here: `none`) when the status is not in the flow list —
in particular for "cancelled"; otherwise the next status in the flow, or the
current one when already at the final flow status. -/
def get_next_status (current_status : String) : Option String :=
  match ORDER_STATUS_FLOW.findIdx? (fun s => s == current_status) with
  | none => none
  | some current_index =>
    if current_index < ORDER_STATUS_FLOW.length - 1 then
      ORDER_STATUS_FLOW[current_index + 1]?
    else
      some current_status

/-- `should_cancel_order`: never cancel a shipped or cancelled order;
otherwise cancel exactly when the `random.random()` draw falls below
`CANCELLATION_PROBABILITY`. -/
def should_cancel_order (status : String) (draw : ℚ) : Bool :=
  if status = "shipped" ∨ status = "cancelled" then false
  else decide (draw < CANCELLATION_PROBABILITY)

/-- `cancel_order`: pick a reason from the set keyed by the *current*
(pre-cancellation) status, falling back to "order_cancelled" when the status
has no reason set; then mark the order cancelled. -/
def cancel_order (order : Order) (reasonChoice : Nat) (current_time : ℚ) : Order :=
  let reason :=
    match CANCELLATION_REASONS.lookup order.status with
    | some reasons => randChoice reasons "" reasonChoice
    | none => "order_cancelled"
  { order with
      status := "cancelled"
      cancellation_reason := some reason
      timestamp := current_time
      last_status_change := current_time }

/-- `should_advance_order`: shipped and cancelled orders never advance (the
guard fires before the dwell-table subscript); otherwise the
`STATUS_TRANSITION_TIMES[status]` subscript can raise `KeyError` (`none`),
and when it succeeds the order is due iff its elapsed time in the current
status has reached its drawn `transition_time`. -/
def should_advance_order (order : Order) (current_time : ℚ) : Option Bool :=
  if order.status = "shipped" ∨ order.status = "cancelled" then some false
  else
    match STATUS_TRANSITION_TIMES.lookup order.status with
    | none => none
    | some _ =>
      some (decide (current_time - order.last_status_change ≥ order.transition_time))

/-- The random draws consumed by one `advance_order_status` call. -/
structure AdvDraw where
  cancelDraw : ℚ
  reasonChoice : Nat
  newDwell : ℚ
deriving DecidableEq

/-- `advance_order_status`: maybe cancel instead of advancing; otherwise move
to the next flow status (`none` when `get_next_status` raises), updating the
timestamp and, when the new status is not "shipped", drawing a new dwell
`transition_time`. -/
def advance_order_status (order : Order) (d : AdvDraw) (current_time : ℚ) : Option Order :=
  if should_cancel_order order.status d.cancelDraw then
    some (cancel_order order d.reasonChoice current_time)
  else
    match get_next_status order.status with
    | none => none
    | some new_status =>
      let o := { order with
                   status := new_status
                   timestamp := current_time
                   last_status_change := current_time }
      if new_status ≠ "shipped" then some { o with transition_time := d.newDwell }
      else some o

/-! ## The event loop (`run_generator`)

The loop state mirrors the local variables of `run_generator`; the `events`
field is the stream handed to the sink dispatcher (console printing and the
Kafka `send` both receive exactly the same `output` projection of the order
dict, so one log suffices).  Each emitted event is recorded as the snapshot of
the order dict at emission time; the payload actually emitted is its
`output_keys` projection (the dict comprehension dropping the two internal
tracking fields). -/

/-- Insertion-ordered dict assignment `m[k] = v`: an existing key keeps its
position, a fresh key is appended. -/
def insertOrReplace (k : String) (v : Order) : List (String × Order) → List (String × Order)
  | [] => [(k, v)]
  | (k', v') :: rest =>
    if k' = k then (k, v) :: rest else (k', v') :: insertOrReplace k v rest

/-- Dict deletion `del m[k]`. -/
def eraseKey (k : String) : List (String × Order) → List (String × Order)
  | [] => []
  | (k', v') :: rest =>
    if k' = k then eraseKey k rest else (k', v') :: eraseKey k rest

/-- The keys of the order dict, in insertion order: the twelve fields built by
`generate_sale`, then the two tracking fields the loop adds, then
`cancellation_reason` exactly when `cancel_order` has set it. -/
def orderKeys (o : Order) : List String :=
  ["order_id", "timestamp", "product_id", "product_name", "quantity", "price",
   "total", "customer_id", "customer_email", "payment_method",
   "shipping_address", "status", "last_status_change", "transition_time"] ++
  (if o.cancellation_reason.isSome then ["cancellation_reason"] else [])

/-- The keys of the emitted payload: the dict comprehension
`if k not in ["last_status_change", "transition_time"]` applied to the order
dict (values are carried over unchanged, so the key set is what matters). -/
def output_keys (o : Order) : List String :=
  (orderKeys o).filter (fun k => decide (k ≠ "last_status_change" ∧ k ≠ "transition_time"))

/-- The mutable state of `run_generator`'s loop. -/
structure GenState where
  active_orders : List (String × Order)
  new_orders_count : Nat
  status_updates_count : Nat
  shipped_orders_count : Nat
  cancelled_orders_count : Nat
  next_order_time : ℚ
  events : List Order
deriving DecidableEq

/-- Configuration of one `run_generator` session.  `min_delay` and `max_delay`
only parameterize the distribution of the oracle-supplied inter-arrival
draws; the sink configuration does not influence the event stream. -/
structure Config where
  duration_minutes : Nat
  min_delay : Nat
  max_delay : Nat
deriving DecidableEq

/-- `duration_seconds = duration_minutes * 60`. -/
def duration_seconds (cfg : Config) : ℚ := (cfg.duration_minutes : ℚ) * 60

/-- The external inputs of one loop iteration: the `time.time()` reading and
every random draw the iteration may consume (`adv` gives, per order
identifier, the draws `advance_order_status` would use on that order). -/
structure TickIn where
  now : ℚ
  sale : SaleDraw
  dwell : ℚ
  arrival : ℚ
  adv : String → AdvDraw

/-- The order identifier a creation in this tick would be stored under. -/
def saleOrderId (d : SaleDraw) : String := generate_order_id d.orderIdDraw

/-- The initial loop state: empty registry, zero counters, first arrival
scheduled `firstArrival` after loop start. -/
def initState (startTime firstArrival : ℚ) : GenState :=
  { active_orders := []
    new_orders_count := 0
    status_updates_count := 0
    shipped_orders_count := 0
    cancelled_orders_count := 0
    next_order_time := startTime + firstArrival
    events := [] }

/-- Step (b) of a tick: if the arrival timer has elapsed, create a new order
(always "pending"), set its tracking fields, store it in the registry
(`active_orders[sale["order_id"]] = sale` — a colliding identifier silently
replaces the existing entry), emit its creation event, bump the created
counter and schedule the next arrival. -/
def createStep (s : GenState) (ti : TickIn) : GenState :=
  if ti.now ≥ s.next_order_time then
    let sale0 := generate_sale ti.sale ti.now
    let sale := { sale0 with last_status_change := ti.now, transition_time := ti.dwell }
    { s with
        active_orders := insertOrReplace sale.order_id sale s.active_orders
        events := s.events ++ [sale]
        new_orders_count := s.new_orders_count + 1
        next_order_time := ti.now + ti.arrival }
  else s

/-- Step (c), first half: the scan `[id for id, o in active_orders.items() if
should_advance_order(o, now)]`; `none` when the scan itself raises. -/
def collectDue (t : ℚ) : List (String × Order) → Option (List String)
  | [] => some []
  | (id, o) :: rest =>
    match should_advance_order o t with
    | none => none
    | some b =>
      match collectDue t rest with
      | none => none
      | some l => some (if b then id :: l else l)

/-- Processing of one due order: look it up (`KeyError` is `none`), advance
it in place, emit the update event, bump the update counter, and when the new
status is terminal remove it from the registry and bump the matching terminal
counter. -/
def processUpdate (t : ℚ) (adv : String → AdvDraw) (s : GenState) (id : String) : Option GenState :=
  match s.active_orders.lookup id with
  | none => none
  | some order =>
    match advance_order_status order (adv id) t with
    | none => none
    | some o' =>
      let act := insertOrReplace id o' s.active_orders
      let s' := { s with
                    active_orders := act
                    events := s.events ++ [o']
                    status_updates_count := s.status_updates_count + 1 }
      if o'.status = "shipped" then
        some { s' with
                 active_orders := eraseKey id act
                 shipped_orders_count := s'.shipped_orders_count + 1 }
      else if o'.status = "cancelled" then
        some { s' with
                 active_orders := eraseKey id act
                 cancelled_orders_count := s'.cancelled_orders_count + 1 }
      else some s'

/-- Step (c), second half: process each collected due order once, in scan
order. -/
def processUpdates (t : ℚ) (adv : String → AdvDraw) : GenState → List String → Option GenState
  | s, [] => some s
  | s, id :: rest =>
    match processUpdate t adv s id with
    | none => none
    | some s' => processUpdates t adv s' rest

/-- One full loop iteration after the duration check: admission, due-scan,
then transitions.  `none` models an uncaught exception aborting the loop. -/
def tick (s : GenState) (ti : TickIn) : Option GenState :=
  let s1 := createStep s ti
  match collectDue ti.now s1.active_orders with
  | none => none
  | some due => processUpdates ti.now ti.adv s1 due

/-- The loop itself: each iteration first checks
`elapsed_time >= duration_seconds` and breaks (ignoring the remaining tick
inputs); otherwise it runs one `tick`. -/
def runTicks (cfg : Config) (startTime : ℚ) : GenState → List TickIn → Option GenState
  | s, [] => some s
  | s, ti :: rest =>
    if ti.now - startTime ≥ duration_seconds cfg then some s
    else
      match tick s ti with
      | none => none
      | some s' => runTicks cfg startTime s' rest

/-- A whole `run_generator` session: the loop run from the initial state over
the given sequence of iteration inputs. -/
def run_generator (cfg : Config) (startTime firstArrival : ℚ) (ts : List TickIn) : Option GenState :=
  runTicks cfg startTime (initState startTime firstArrival) ts

/-- Shutdown statistics: `success rate`, guarded by `new_orders_count > 0`
(the Python conditional expression yields 0 without dividing when no order
was created). -/
def success_rate (s : GenState) : ℚ :=
  if s.new_orders_count > 0 then (s.shipped_orders_count : ℚ) / s.new_orders_count * 100 else 0

/-- Shutdown statistics: `cancellation rate`, with the same guard. -/
def cancellation_rate (s : GenState) : ℚ :=
  if s.new_orders_count > 0 then (s.cancelled_orders_count : ℚ) / s.new_orders_count * 100 else 0

/-- Shutdown statistics: `Average rate: new_orders_count / (elapsed_time / 60)`
(new orders per minute), where `elapsed` is the shutdown wall-clock reading
minus the loop-start reading.  Unlike the two rates above, this division
carries no guard in the source: when `elapsed / 60` is zero — that is, when
the two clock readings coincide — Python raises `ZeroDivisionError`, modelled
as `none`. -/
def average_rate (s : GenState) (elapsed : ℚ) : Option ℚ :=
  if elapsed / 60 = 0 then none
  else some ((s.new_orders_count : ℚ) / (elapsed / 60))

/-! ## Startup validation (`main`)

`main` parses the command line and validates exactly one thing before calling
`run_generator`: that `--kafka-bootstrap-servers` and `--kafka-topic` are
given together.  `parser.error` aborts the process.  No check relates
`min_delay` and `max_delay` (and `random.uniform(a, b)` accepts a reversed
range without raising), so an out-of-range delay configuration reaches the
loop. -/

/-- The parsed command-line arguments. -/
structure Args where
  duration : Nat
  min_delay : Nat
  max_delay : Nat
  kafka_bootstrap_servers : Option String
  kafka_topic : Option String
  no_console : Bool
  output_console : Bool
deriving DecidableEq

/-- The startup validation `main` performs before entering the loop:
`Except.error` models a `parser.error` abort. -/
def validate_args (a : Args) : Except String Unit :=
  if a.kafka_bootstrap_servers.isSome ∧ ¬ a.kafka_topic.isSome then
    Except.error "kafka-topic is required when kafka-bootstrap-servers is specified"
  else if a.kafka_topic.isSome ∧ ¬ a.kafka_bootstrap_servers.isSome then
    Except.error "kafka-bootstrap-servers is required when kafka-topic is specified"
  else Except.ok ()

/-- The `Config` `main` passes to `run_generator` for given arguments. -/
def configOf (a : Args) : Config :=
  { duration_minutes := a.duration, min_delay := a.min_delay, max_delay := a.max_delay }

/-! ## Concrete sessions used to evaluate the model

`saleA` and `saleB` both carry identifier draw 0 (so both produce order
identifier `ORD-10000000`, which `random.randint(10000000, 99999999)` yields
whenever it draws its lower bound); `saleC` draws a distinct identifier.
`advNever` supplies a `random.random()` outcome of 1, so no cancellation
fires; dwell draws are inside the configured ranges. -/

/-- A fixed shipping address for the concrete sessions. -/
def addrA : Address := ⟨"1 Main St", "Springfield", "CA", "90000", "USA"⟩

/-- Creation draws of the first admitted order (identifier draw 0). -/
def saleA : SaleDraw := ⟨0, 0, 30, 0, 0, "a@example.com", 0, addrA⟩

/-- Creation draws of a second order with the same identifier draw 0 but a
different customer draw. -/
def saleB : SaleDraw := ⟨0, 0, 30, 0, 1, "b@example.com", 0, addrA⟩

/-- Creation draws with a fresh identifier draw (1). -/
def saleC : SaleDraw := ⟨0, 0, 30, 1, 2, "c@example.com", 0, addrA⟩

/-- Advance draws that never cancel (`random.random()` outcome 1 ≥ 0.08). -/
def advNever : String → AdvDraw := fun _ => ⟨1, 0, 15⟩

/-- One non-cancelling advance draw. -/
def advDraw1 : AdvDraw := ⟨1, 0, 15⟩

/-- First loop iteration: at time 1 the arrival timer (due at 1) has elapsed,
so `saleA` is admitted with dwell 20; next arrival in 5 seconds. -/
def tickA : TickIn := ⟨1, saleA, 20, 5, advNever⟩

/-- Second iteration at time 6: the arrival timer (due at 6) has elapsed, so
`saleB` is admitted — drawing the identifier already held by `saleA`. -/
def tickB : TickIn := ⟨6, saleB, 20, 5, advNever⟩

/-- An iteration at time 2: no arrival is due and no registered order's dwell
has elapsed. -/
def tickC : TickIn := ⟨2, saleC, 20, 5, advNever⟩

/-- A 5-minute session with the default delay range. -/
def cfgX : Config := ⟨5, 1, 60⟩

/-- A 5-minute session whose delay range is reversed (max_delay < min_delay). -/
def cfgY : Config := ⟨5, 10, 1⟩

/-- A 0-minute session. -/
def cfg0 : Config := ⟨0, 1, 60⟩

/-- Command-line arguments with a reversed delay range and no Kafka flags. -/
def argsBad : Args := ⟨5, 10, 1, none, none, false, false⟩

/-- Command-line arguments with both Kafka flags present. -/
def argsKafka : Args := ⟨5, 1, 60, some "localhost:9092", some "sales-events", false, false⟩

/-- Command-line arguments with only one of the two Kafka flags. -/
def argsMismatch : Args := ⟨5, 1, 60, some "localhost:9092", none, false, false⟩

/-- The config `main` builds from `argsBad`. -/
def cfgBad : Config := configOf argsBad

/-- The final state of the two-admission session in which both orders draw
the same identifier. -/
def cexState : GenState := (run_generator cfgX 0 1 [tickA, tickB]).getD (initState 0 0)

/-- The state after one iteration that admits `saleA` (a one-order registry). -/
def w1State : GenState := (tick (initState 0 1) tickA).getD (initState 0 0)

/-- The order registered in `w1State`. -/
def ord1 : Order := (w1State.active_orders.lookup "ORD-10000000").getD (generate_sale saleA 0)

/-- The result of advancing `ord1` at time 11 with a non-cancelling draw. -/
def ord1adv : Order := (advance_order_status ord1 advDraw1 11).getD ord1

/-- The creation event emitted in `w1State`. -/
def ev1 : Order := w1State.events.getD 0 (generate_sale saleA 0)

/-- The keys of the registry. -/
def keysOf (l : List (String × Order)) : List String := l.map Prod.fst

/-- The statuses an order can hold while it sits in the active registry. -/
def S3 (st : String) : Prop := st = "pending" ∨ st = "confirmed" ∨ st = "processing"

instance (st : String) : Decidable (S3 st) := by unfold S3; infer_instance

/-- The cancellation-reason set of a status (empty for statuses outside the
`CANCELLATION_REASONS` table). -/
def reasonsFor (st : String) : List String := (CANCELLATION_REASONS.lookup st).getD []

/-- The three single-step edges of the forward progression
pending → confirmed → processing → shipped. -/
def nextPair (a b : String) : Prop :=
  (a = "pending" ∧ b = "confirmed") ∨ (a = "confirmed" ∧ b = "processing") ∨
    (a = "processing" ∧ b = "shipped")

instance (a b : String) : Decidable (nextPair a b) := by
  unfold nextPair
  infer_instance

/-- Well-formedness of one registry entry: a registered order is in one of the
three non-terminal, non-final statuses, carries no cancellation reason, and is
stored under its own identifier. -/
def EntryWF (p : String × Order) : Prop :=
  S3 p.2.status ∧ p.2.cancellation_reason = none ∧ p.1 = p.2.order_id

instance (p : String × Order) : Decidable (EntryWF p) := by
  unfold EntryWF
  infer_instance

/-- Well-formedness of the registry: its keys are distinct (it is a dict) and
every entry is well-formed. -/
def StateWF (s : GenState) : Prop :=
  (keysOf s.active_orders).Nodup ∧ ∀ p ∈ s.active_orders, EntryWF p

instance (s : GenState) : Decidable (StateWF s) := by
  unfold StateWF
  infer_instance

/-- Well-formedness of one emitted event snapshot: the cancellation reason is
present exactly on cancelled events, and any present reason comes from the
reason set of one of the three cancellable statuses. -/
def EventWF (e : Order) : Prop :=
  (e.cancellation_reason = none ↔ e.status ≠ "cancelled") ∧
  ∀ r, e.cancellation_reason = some r → ∃ pre, S3 pre ∧ r ∈ reasonsFor pre

/-- The invariant the event loop maintains. -/
def LoopInv (s : GenState) : Prop := StateWF s ∧ ∀ e ∈ s.events, EventWF e

/-- The reachable loop states of a session: the initial state, and any state
obtained from a reachable state by a tick that ran because the session
deadline had not yet expired at that iteration. -/
inductive Reachable (cfg : Config) (startTime : ℚ) : GenState → Prop
  | init (firstArrival : ℚ) : Reachable cfg startTime (initState startTime firstArrival)
  | step {s s' : GenState} {ti : TickIn} :
      Reachable cfg startTime s →
      ti.now - startTime < duration_seconds cfg →
      tick s ti = some s' →
      Reachable cfg startTime s'

/-- Reachability along collision-free executions: whenever a tick admits a
new order, the drawn identifier is not already a key of the registry. -/
inductive ReachableNC (cfg : Config) (startTime : ℚ) : GenState → Prop
  | init (firstArrival : ℚ) : ReachableNC cfg startTime (initState startTime firstArrival)
  | step {s s' : GenState} {ti : TickIn} :
      ReachableNC cfg startTime s →
      ti.now - startTime < duration_seconds cfg →
      (ti.now ≥ s.next_order_time → saleOrderId ti.sale ∉ keysOf s.active_orders) →
      tick s ti = some s' →
      ReachableNC cfg startTime s'

/-! ## Association-list lemmas for the registry -/

theorem mem_insertOrReplace {k : String} {v : Order} {l : List (String × Order)}
    {p : String × Order} (h : p ∈ insertOrReplace k v l) : p = (k, v) ∨ p ∈ l := by
  induction l with
  | nil => simpa [insertOrReplace] using h
  | cons hd tl ih =>
    obtain ⟨k', v'⟩ := hd
    by_cases hk : k' = k
    · simp only [insertOrReplace, if_pos hk, List.mem_cons] at h
      rcases h with h | h
      · exact Or.inl h
      · exact Or.inr (List.mem_cons_of_mem _ h)
    · simp only [insertOrReplace, if_neg hk, List.mem_cons] at h
      rcases h with h | h
      · exact Or.inr (by rw [h]; exact List.mem_cons_self _ _)
      · rcases ih h with h' | h'
        · exact Or.inl h'
        · exact Or.inr (List.mem_cons_of_mem _ h')

theorem keys_insertOrReplace (k : String) (v : Order) (l : List (String × Order)) :
    keysOf (insertOrReplace k v l) =
      if k ∈ keysOf l then keysOf l else keysOf l ++ [k] := by
  induction l with
  | nil => simp [insertOrReplace, keysOf]
  | cons hd tl ih =>
    obtain ⟨k', v'⟩ := hd
    by_cases hk : k' = k
    · subst hk
      simp [insertOrReplace, keysOf]
    · simp only [insertOrReplace, if_neg hk, keysOf, List.map_cons] at ih ⊢
      by_cases hmem : k ∈ tl.map Prod.fst
      · simp [hmem, ih, Ne.symm hk]
      · simp [hmem, ih, Ne.symm hk]

theorem mem_eraseKey {k : String} {l : List (String × Order)} {p : String × Order}
    (h : p ∈ eraseKey k l) : p ∈ l ∧ p.1 ≠ k := by
  induction l with
  | nil => simp [eraseKey] at h
  | cons hd tl ih =>
    obtain ⟨k', v'⟩ := hd
    by_cases hk : k' = k
    · simp only [eraseKey, if_pos hk] at h
      exact ⟨List.mem_cons_of_mem _ (ih h).1, (ih h).2⟩
    · simp only [eraseKey, if_neg hk, List.mem_cons] at h
      rcases h with h | h
      · subst h
        exact ⟨List.mem_cons_self _ _, hk⟩
      · exact ⟨List.mem_cons_of_mem _ (ih h).1, (ih h).2⟩

theorem eraseKey_of_not_mem {k : String} {l : List (String × Order)}
    (h : k ∉ keysOf l) : eraseKey k l = l := by
  induction l with
  | nil => simp [eraseKey]
  | cons hd tl ih =>
    obtain ⟨k', v'⟩ := hd
    simp only [keysOf, List.map_cons, List.mem_cons, not_or] at h
    rw [show eraseKey k ((k', v') :: tl) = (k', v') :: eraseKey k tl from by
          simp [eraseKey, Ne.symm h.1]]
    rw [ih (by simpa [keysOf] using h.2)]

theorem keys_eraseKey_sublist (k : String) (l : List (String × Order)) :
    (keysOf (eraseKey k l)).Sublist (keysOf l) := by
  induction l with
  | nil => simp [eraseKey, keysOf]
  | cons hd tl ih =>
    obtain ⟨k', v'⟩ := hd
    by_cases hk : k' = k
    · simp only [eraseKey, if_pos hk, keysOf, List.map_cons]
      exact ih.cons _
    · simp only [eraseKey, if_neg hk, keysOf, List.map_cons]
      exact ih.cons₂ _

theorem mem_keys_eraseKey {k k' : String} {l : List (String × Order)} :
    k' ∈ keysOf (eraseKey k l) ↔ k' ∈ keysOf l ∧ k' ≠ k := by
  induction l with
  | nil => simp [eraseKey, keysOf]
  | cons hd tl ih =>
    obtain ⟨k₀, v₀⟩ := hd
    by_cases hk : k₀ = k
    · subst hk
      rw [show eraseKey k₀ ((k₀, v₀) :: tl) = eraseKey k₀ tl from by simp [eraseKey]]
      rw [ih]
      simp only [keysOf, List.map_cons, List.mem_cons]
      constructor
      · rintro ⟨h1, h2⟩
        exact ⟨Or.inr h1, h2⟩
      · rintro ⟨h1 | h1, h2⟩
        · exact absurd h1 h2
        · exact ⟨h1, h2⟩
    · rw [show eraseKey k ((k₀, v₀) :: tl) = (k₀, v₀) :: eraseKey k tl from by
            simp [eraseKey, hk]]
      simp only [keysOf, List.map_cons, List.mem_cons]
      simp only [keysOf] at ih
      rw [ih]
      constructor
      · rintro (h | ⟨h1, h2⟩)
        · exact ⟨Or.inl h, fun hc => hk (h.symm.trans hc)⟩
        · exact ⟨Or.inr h1, h2⟩
      · rintro ⟨h1 | h1, h2⟩
        · exact Or.inl h1
        · exact Or.inr ⟨h1, h2⟩

theorem length_eraseKey_of_mem {k : String} {l : List (String × Order)}
    (hN : (keysOf l).Nodup) (h : k ∈ keysOf l) :
    (eraseKey k l).length + 1 = l.length := by
  induction l with
  | nil => simp [keysOf] at h
  | cons hd tl ih =>
    obtain ⟨k₀, v₀⟩ := hd
    simp only [keysOf, List.map_cons, List.nodup_cons] at hN
    by_cases hk : k₀ = k
    · subst hk
      rw [show eraseKey k₀ ((k₀, v₀) :: tl) = eraseKey k₀ tl from by simp [eraseKey]]
      rw [eraseKey_of_not_mem (by simpa [keysOf] using hN.1)]
      simp
    · simp only [keysOf, List.map_cons, List.mem_cons] at h
      rcases h with h | h
      · exact absurd h.symm hk
      · simp only [eraseKey, if_neg hk, List.length_cons]
        rw [← ih hN.2 (by simpa [keysOf] using h)]

theorem lookup_cons_self (k : String) (v : Order) (tl : List (String × Order)) :
    List.lookup k ((k, v) :: tl) = some v := by
  simp [List.lookup]

theorem lookup_cons_ne {k k' : String} (v : Order) (tl : List (String × Order))
    (h : k ≠ k') : List.lookup k ((k', v) :: tl) = List.lookup k tl := by
  simp [List.lookup, beq_eq_false_iff_ne.mpr h]

theorem lookup_insertOrReplace_self (k : String) (v : Order) (l : List (String × Order)) :
    (insertOrReplace k v l).lookup k = some v := by
  induction l with
  | nil => simp [insertOrReplace, List.lookup]
  | cons hd tl ih =>
    obtain ⟨k', v'⟩ := hd
    by_cases hk : k' = k
    · simp only [insertOrReplace, if_pos hk, lookup_cons_self]
    · simp only [insertOrReplace, if_neg hk,
        lookup_cons_ne v' (insertOrReplace k v tl) (fun hc => hk hc.symm), ih]

theorem lookup_insertOrReplace_ne {k k' : String} (v : Order) (l : List (String × Order))
    (h : k' ≠ k) : (insertOrReplace k v l).lookup k' = l.lookup k' := by
  induction l with
  | nil => simp [insertOrReplace, lookup_cons_ne v [] h]
  | cons hd tl ih =>
    obtain ⟨k₀, v₀⟩ := hd
    by_cases hk : k₀ = k
    · subst hk
      rw [show insertOrReplace k₀ v ((k₀, v₀) :: tl) = (k₀, v) :: tl from by
            simp [insertOrReplace]]
      rw [lookup_cons_ne _ _ h, lookup_cons_ne _ _ h]
    · by_cases hk' : k' = k₀
      · subst hk'
        simp only [insertOrReplace, if_neg hk, lookup_cons_self]
      · simp only [insertOrReplace, if_neg hk, lookup_cons_ne _ _ hk', ih]

theorem lookup_eraseKey_ne {k k' : String} (l : List (String × Order))
    (h : k' ≠ k) : (eraseKey k l).lookup k' = l.lookup k' := by
  induction l with
  | nil => simp [eraseKey]
  | cons hd tl ih =>
    obtain ⟨k₀, v₀⟩ := hd
    by_cases hk : k₀ = k
    · subst hk
      rw [show eraseKey k₀ ((k₀, v₀) :: tl) = eraseKey k₀ tl from by simp [eraseKey]]
      rw [ih, lookup_cons_ne _ _ h]
    · rw [show eraseKey k ((k₀, v₀) :: tl) = (k₀, v₀) :: eraseKey k tl from by
            simp [eraseKey, hk]]
      by_cases hk' : k' = k₀
      · subst hk'
        rw [lookup_cons_self, lookup_cons_self]
      · rw [lookup_cons_ne _ _ hk', lookup_cons_ne _ _ hk', ih]

theorem mem_of_lookup_eq_some {k : String} {v : Order} {l : List (String × Order)}
    (h : l.lookup k = some v) : (k, v) ∈ l := by
  induction l with
  | nil => simp [List.lookup] at h
  | cons hd tl ih =>
    obtain ⟨k₀, v₀⟩ := hd
    by_cases hk : k = k₀
    · subst hk
      simp only [List.lookup, beq_self_eq_true] at h
      cases h
      exact List.mem_cons_self _ _
    · simp only [List.lookup, beq_eq_false_iff_ne.mpr hk] at h
      exact List.mem_cons_of_mem _ (ih h)

theorem lookup_isSome_of_mem_keys {k : String} {l : List (String × Order)}
    (h : k ∈ keysOf l) : (l.lookup k).isSome := by
  induction l with
  | nil => simp [keysOf] at h
  | cons hd tl ih =>
    obtain ⟨k₀, v₀⟩ := hd
    by_cases hk : k = k₀
    · subst hk
      simp [List.lookup]
    · simp only [keysOf, List.map_cons, List.mem_cons] at h
      rcases h with h | h
      · exact absurd h hk
      · simp only [List.lookup, beq_eq_false_iff_ne.mpr hk]
        exact ih (by simpa [keysOf] using h)

/-! ## Lifecycle-policy characterization -/



theorem randChoice_mem {α : Type} (xs : List α) (d : α) (n : Nat) (h : xs ≠ []) :
    randChoice xs d n ∈ xs := by
  unfold randChoice
  have hlen : 0 < xs.length := List.length_pos.mpr h
  rw [List.getD_eq_getElem _ _ (Nat.mod_lt n hlen)]
  exact List.getElem_mem _

theorem should_advance_order_terminal (o : Order) (t : ℚ)
    (h : o.status = "shipped" ∨ o.status = "cancelled") :
    should_advance_order o t = some false := by
  unfold should_advance_order
  rw [if_pos h]

theorem reasons_lookup_S3 (st : String) (h : S3 st) :
    CANCELLATION_REASONS.lookup st = some (reasonsFor st) ∧ reasonsFor st ≠ [] := by
  rcases h with h | h | h <;> subst h <;> exact ⟨by decide, by decide⟩

theorem should_advance_order_S3 (o : Order) (t : ℚ) (h : S3 o.status) :
    should_advance_order o t =
      some (decide (t - o.last_status_change ≥ o.transition_time)) := by
  have hne : ¬ (o.status = "shipped" ∨ o.status = "cancelled") := by
    rcases h with h | h | h <;> simp [h]
  unfold should_advance_order
  rw [if_neg hne]
  rcases h with h | h | h <;> rw [h] <;> rfl

theorem get_next_status_S3 (st : String) (h : S3 st) :
    ∃ nxt, get_next_status st = some nxt ∧ nextPair st nxt := by
  rcases h with h | h | h <;> subst h
  · exact ⟨"confirmed", by decide, Or.inl ⟨rfl, rfl⟩⟩
  · exact ⟨"processing", by decide, Or.inr (Or.inl ⟨rfl, rfl⟩)⟩
  · exact ⟨"shipped", by decide, Or.inr (Or.inr ⟨rfl, rfl⟩)⟩

theorem cancel_order_spec (o : Order) (n : Nat) (t : ℚ) (h : S3 o.status) :
    (cancel_order o n t).status = "cancelled" ∧
    (cancel_order o n t).order_id = o.order_id ∧
    ∃ r, (cancel_order o n t).cancellation_reason = some r ∧ r ∈ reasonsFor o.status := by
  obtain ⟨hl, hne⟩ := reasons_lookup_S3 o.status h
  refine ⟨rfl, rfl, randChoice (reasonsFor o.status) "" n, ?_, randChoice_mem _ _ _ hne⟩
  simp only [cancel_order, hl]

theorem advance_order_status_spec {o : Order} {d : AdvDraw} {t : ℚ} {o' : Order}
    (h : S3 o.status) (ha : advance_order_status o d t = some o') :
    o'.order_id = o.order_id ∧
    ((o'.status = "cancelled" ∧
        ∃ r, o'.cancellation_reason = some r ∧ r ∈ reasonsFor o.status) ∨
      (nextPair o.status o'.status ∧ o'.cancellation_reason = o.cancellation_reason)) := by
  unfold advance_order_status at ha
  by_cases hc : should_cancel_order o.status d.cancelDraw
  · rw [if_pos hc] at ha
    obtain ⟨hs, hid, hr⟩ := cancel_order_spec o d.reasonChoice t h
    have he := Option.some.inj ha
    subst he
    exact ⟨hid, Or.inl ⟨hs, hr⟩⟩
  · rw [if_neg hc] at ha
    obtain ⟨nxt, hg, hp⟩ := get_next_status_S3 o.status h
    rw [hg] at ha
    simp only at ha
    by_cases hsh : nxt ≠ "shipped"
    · rw [if_pos hsh] at ha
      have he := Option.some.inj ha
      subst he
      exact ⟨rfl, Or.inr ⟨hp, rfl⟩⟩
    · rw [if_neg hsh] at ha
      have he := Option.some.inj ha
      subst he
      exact ⟨rfl, Or.inr ⟨hp, rfl⟩⟩

theorem advance_order_status_isSome (o : Order) (d : AdvDraw) (t : ℚ) (h : S3 o.status) :
    (advance_order_status o d t).isSome := by
  unfold advance_order_status
  by_cases hc : should_cancel_order o.status d.cancelDraw
  · simp [hc]
  · obtain ⟨nxt, hg, _⟩ := get_next_status_S3 o.status h
    rw [if_neg hc, hg]
    simp only
    by_cases hsh : nxt ≠ "shipped"
    · simp [hsh]
    · simp [hsh]

/-! ## The loop invariant -/



theorem generate_sale_status (d : SaleDraw) (now : ℚ) :
    (generate_sale d now).status = "pending" := rfl

theorem generate_sale_reason (d : SaleDraw) (now : ℚ) :
    (generate_sale d now).cancellation_reason = none := rfl

theorem createStep_inv {s : GenState} (ti : TickIn) (h : LoopInv s) :
    LoopInv (createStep s ti) := by
  unfold createStep
  by_cases hc : ti.now ≥ s.next_order_time
  · rw [if_pos hc]
    obtain ⟨⟨hN, hE⟩, hEv⟩ := h
    refine ⟨⟨?_, ?_⟩, ?_⟩
    · rw [keys_insertOrReplace]
      split
      · exact hN
      · rename_i hnm
        refine List.Nodup.append hN (List.nodup_singleton _) ?_
        intro a ha hb
        simp only [List.mem_singleton] at hb
        subst hb
        exact hnm ha
    · intro p hp
      rcases mem_insertOrReplace hp with hp | hp
      · subst hp
        exact ⟨Or.inl rfl, rfl, rfl⟩
      · exact hE p hp
    · intro e he
      rw [List.mem_append] at he
      rcases he with he | he
      · exact hEv e he
      · simp only [List.mem_singleton] at he
        subst he
        constructor
        · constructor
          · intro _ hc'
            have hs : ("pending" : String) = "cancelled" := hc'
            exact absurd hs (by decide)
          · intro _
            rfl
        · intro r hr
          exact Option.noConfusion (hr : (none : Option String) = some r)
  · rw [if_neg hc]
    exact h

theorem processUpdate_spec {s : GenState} {id : String} (t : ℚ) (adv : String → AdvDraw)
    (h : LoopInv s) (hid : id ∈ keysOf s.active_orders) :
    ∃ s' o', processUpdate t adv s id = some s' ∧ LoopInv s' ∧
      o'.order_id = id ∧
      s'.events = s.events ++ [o'] ∧
      s'.new_orders_count = s.new_orders_count ∧
      s'.next_order_time = s.next_order_time ∧
      (∀ k', k' ≠ id → s'.active_orders.lookup k' = s.active_orders.lookup k') ∧
      (∀ k', k' ≠ id → (k' ∈ keysOf s'.active_orders ↔ k' ∈ keysOf s.active_orders)) ∧
      s'.shipped_orders_count + s'.cancelled_orders_count + s'.active_orders.length
        = s.shipped_orders_count + s.cancelled_orders_count + s.active_orders.length := by
  obtain ⟨⟨hN, hE⟩, hEv⟩ := h
  obtain ⟨order, hlook⟩ := Option.isSome_iff_exists.mp (lookup_isSome_of_mem_keys hid)
  have hmem := mem_of_lookup_eq_some hlook
  have hwf : S3 order.status ∧ order.cancellation_reason = none ∧ id = order.order_id :=
    hE _ hmem
  obtain ⟨hS3, hRn, hKey⟩ := hwf
  obtain ⟨o', hadv⟩ :=
    Option.isSome_iff_exists.mp (advance_order_status_isSome order (adv id) t hS3)
  obtain ⟨hid', hcases⟩ := advance_order_status_spec hS3 hadv
  have hido : o'.order_id = id := by rw [hid', ← hKey]
  have hkeysIns : keysOf (insertOrReplace id o' s.active_orders) = keysOf s.active_orders := by
    rw [keys_insertOrReplace, if_pos hid]
  have hNIns : (keysOf (insertOrReplace id o' s.active_orders)).Nodup := by
    rw [hkeysIns]
    exact hN
  have hidIns : id ∈ keysOf (insertOrReplace id o' s.active_orders) := by
    rw [hkeysIns]
    exact hid
  have hlenIns : (insertOrReplace id o' s.active_orders).length = s.active_orders.length := by
    have h1 := congrArg List.length hkeysIns
    simpa [keysOf] using h1
  have hlenErase : (eraseKey id (insertOrReplace id o' s.active_orders)).length + 1
      = s.active_orders.length := by
    rw [length_eraseKey_of_mem hNIns hidIns, hlenIns]
  have hEntriesErase : ∀ p ∈ eraseKey id (insertOrReplace id o' s.active_orders), EntryWF p := by
    intro p hp
    obtain ⟨hp1, hp2⟩ := mem_eraseKey hp
    rcases mem_insertOrReplace hp1 with hp1 | hp1
    · exact absurd (congrArg Prod.fst hp1) hp2
    · exact hE p hp1
  have hNErase : (keysOf (eraseKey id (insertOrReplace id o' s.active_orders))).Nodup :=
    List.Nodup.sublist (keys_eraseKey_sublist _ _) hNIns
  have hLookErase : ∀ k', k' ≠ id →
      (eraseKey id (insertOrReplace id o' s.active_orders)).lookup k'
        = s.active_orders.lookup k' := by
    intro k' hk'
    rw [lookup_eraseKey_ne _ hk', lookup_insertOrReplace_ne _ _ hk']
  have hKeysErase : ∀ k', k' ≠ id →
      (k' ∈ keysOf (eraseKey id (insertOrReplace id o' s.active_orders))
        ↔ k' ∈ keysOf s.active_orders) := by
    intro k' hk'
    rw [mem_keys_eraseKey, hkeysIns]
    exact ⟨fun hx => hx.1, fun hx => ⟨hx, hk'⟩⟩
  have hLookIns : ∀ k', k' ≠ id →
      (insertOrReplace id o' s.active_orders).lookup k' = s.active_orders.lookup k' := by
    intro k' hk'
    rw [lookup_insertOrReplace_ne _ _ hk']
  have hKeysIns : ∀ k', k' ≠ id →
      (k' ∈ keysOf (insertOrReplace id o' s.active_orders) ↔ k' ∈ keysOf s.active_orders) := by
    intro k' _
    rw [hkeysIns]
  simp only [processUpdate, hlook, hadv]
  by_cases hsh : o'.status = "shipped"
  · have hrn' : o'.cancellation_reason = none := by
      rcases hcases with ⟨hc, _⟩ | ⟨_, hr⟩
      · exact absurd (hsh.symm.trans hc) (by decide)
      · rw [hr]
        exact hRn
    have hewf : EventWF o' := by
      constructor
      · constructor
        · intro _ hc'
          exact absurd (hsh.symm.trans hc') (by decide)
        · intro _
          exact hrn'
      · intro r hr
        rw [hrn'] at hr
        exact Option.noConfusion hr
    rw [if_pos hsh]
    refine ⟨_, o', rfl, ⟨⟨hNErase, hEntriesErase⟩, ?_⟩, hido, rfl, rfl, rfl,
      hLookErase, hKeysErase, ?_⟩
    · intro e he
      rw [List.mem_append] at he
      rcases he with he | he
      · exact hEv e he
      · simp only [List.mem_singleton] at he
        subst he
        exact hewf
    · simp only
      omega
  · by_cases hca : o'.status = "cancelled"
    · have hr' : ∃ r, o'.cancellation_reason = some r ∧ r ∈ reasonsFor order.status := by
        rcases hcases with ⟨_, hr⟩ | ⟨hp, _⟩
        · exact hr
        · rcases hp with ⟨_, hb⟩ | ⟨_, hb⟩ | ⟨_, hb⟩ <;>
            exact absurd (hb.symm.trans hca) (by decide)
      have hewf : EventWF o' := by
        obtain ⟨r, hr1, hr2⟩ := hr'
        constructor
        · constructor
          · intro hn
            rw [hn] at hr1
            exact Option.noConfusion hr1
          · intro hne
            exact absurd hca hne
        · intro r' hr''
          rw [hr1] at hr''
          have : r = r' := Option.some.inj hr''
          subst this
          exact ⟨order.status, hS3, hr2⟩
      rw [if_neg hsh, if_pos hca]
      refine ⟨_, o', rfl, ⟨⟨hNErase, hEntriesErase⟩, ?_⟩, hido, rfl, rfl, rfl,
        hLookErase, hKeysErase, ?_⟩
      · intro e he
        rw [List.mem_append] at he
        rcases he with he | he
        · exact hEv e he
        · simp only [List.mem_singleton] at he
          subst he
          exact hewf
      · simp only
        omega
    · have hS3' : S3 o'.status := by
        rcases hcases with ⟨hc, _⟩ | ⟨hp, _⟩
        · exact absurd hc hca
        · rcases hp with ⟨_, hb⟩ | ⟨_, hb⟩ | ⟨_, hb⟩
          · exact Or.inr (Or.inl hb)
          · exact Or.inr (Or.inr hb)
          · exact absurd hb hsh
      have hrn' : o'.cancellation_reason = none := by
        rcases hcases with ⟨hc, _⟩ | ⟨_, hr⟩
        · exact absurd hc hca
        · rw [hr]
          exact hRn
      have hewf : EventWF o' := by
        constructor
        · constructor
          · intro _ hc'
            exact absurd hc' hca
          · intro _
            exact hrn'
        · intro r hr
          rw [hrn'] at hr
          exact Option.noConfusion hr
      rw [if_neg hsh, if_neg hca]
      refine ⟨_, o', rfl, ⟨⟨hNIns, ?_⟩, ?_⟩, hido, rfl, rfl, rfl,
        hLookIns, hKeysIns, ?_⟩
      · intro p hp
        rcases mem_insertOrReplace hp with hp | hp
        · subst hp
          exact ⟨hS3', hrn', hido.symm⟩
        · exact hE p hp
      · intro e he
        rw [List.mem_append] at he
        rcases he with he | he
        · exact hEv e he
        · simp only [List.mem_singleton] at he
          subst he
          exact hewf
      · simp only
        omega

theorem processUpdates_spec {due : List String} {s : GenState} (t : ℚ) (adv : String → AdvDraw)
    (h : LoopInv s) (hsub : ∀ id ∈ due, id ∈ keysOf s.active_orders) (hnd : due.Nodup) :
    ∃ s', processUpdates t adv s due = some s' ∧ LoopInv s' ∧
      s'.new_orders_count = s.new_orders_count ∧
      s'.next_order_time = s.next_order_time ∧
      (∀ k', k' ∉ due → s'.active_orders.lookup k' = s.active_orders.lookup k') ∧
      (∃ es, s'.events = s.events ++ es ∧ ∀ e ∈ es, e.order_id ∈ due) ∧
      s'.shipped_orders_count + s'.cancelled_orders_count + s'.active_orders.length
        = s.shipped_orders_count + s.cancelled_orders_count + s.active_orders.length := by
  induction due generalizing s with
  | nil =>
    exact ⟨s, rfl, h, rfl, rfl, fun _ _ => rfl, ⟨[], by simp, by simp⟩, rfl⟩
  | cons id rest ih =>
    obtain ⟨s₁, o', hpu, hInv₁, hido, hev₁, hnoc₁, hnot₁, hlook₁, hkeys₁, hsum₁⟩ :=
      processUpdate_spec t adv h (hsub id (List.mem_cons_self _ _))
    have hsub' : ∀ id' ∈ rest, id' ∈ keysOf s₁.active_orders := by
      intro id' hid'
      have hne : id' ≠ id := by
        intro hcon
        subst hcon
        exact (List.nodup_cons.mp hnd).1 hid'
      exact (hkeys₁ id' hne).mpr (hsub id' (List.mem_cons_of_mem _ hid'))
    obtain ⟨s₂, hrun, hInv₂, hnoc₂, hnot₂, hlook₂, ⟨es, hes, hesid⟩, hsum₂⟩ :=
      ih hInv₁ hsub' (List.nodup_cons.mp hnd).2
    refine ⟨s₂, ?_, hInv₂, by rw [hnoc₂, hnoc₁], by rw [hnot₂, hnot₁], ?_, ?_, by omega⟩
    · simp only [processUpdates, hpu]
      exact hrun
    · intro k' hk'
      have hk1 : k' ≠ id := fun hc => hk' (hc ▸ List.mem_cons_self _ _)
      have hk2 : k' ∉ rest := fun hc => hk' (List.mem_cons_of_mem _ hc)
      rw [hlook₂ k' hk2, hlook₁ k' hk1]
    · refine ⟨[o'] ++ es, ?_, ?_⟩
      · rw [hes, hev₁, List.append_assoc]
      · intro e he
        rcases List.mem_append.mp he with he | he
        · simp only [List.mem_singleton] at he
          subst he
          rw [hido]
          exact List.mem_cons_self _ _
        · exact List.mem_cons_of_mem _ (hesid e he)

theorem collectDue_sublist {t : ℚ} :
    ∀ {active : List (String × Order)} {due : List String},
      collectDue t active = some due → due.Sublist (keysOf active) := by
  intro active
  induction active with
  | nil =>
    intro due h
    have hd := Option.some.inj h
    subst hd
    simp [keysOf]
  | cons hd tl ih =>
    obtain ⟨k₀, o₀⟩ := hd
    intro due h
    simp only [collectDue] at h
    cases hsa : should_advance_order o₀ t with
    | none =>
      rw [hsa] at h
      exact Option.noConfusion h
    | some b =>
      rw [hsa] at h
      simp only at h
      cases hc : collectDue t tl with
      | none =>
        rw [hc] at h
        exact Option.noConfusion h
      | some l =>
        rw [hc] at h
        simp only at h
        have hdue := Option.some.inj h
        subst hdue
        cases b
        · simpa [keysOf] using (ih hc).cons k₀
        · simpa [keysOf] using (ih hc).cons₂ k₀

theorem collectDue_isSome (t : ℚ) {active : List (String × Order)}
    (h : ∀ p ∈ active, S3 p.2.status) : ∃ due, collectDue t active = some due := by
  induction active with
  | nil => exact ⟨[], rfl⟩
  | cons hd tl ih =>
    obtain ⟨k₀, o₀⟩ := hd
    obtain ⟨due, hdue⟩ := ih (fun p hp => h p (List.mem_cons_of_mem _ hp))
    refine ⟨if t - o₀.last_status_change ≥ o₀.transition_time then k₀ :: due else due, ?_⟩
    simp only [collectDue, should_advance_order_S3 o₀ t (h _ (List.mem_cons_self _ _)), hdue]
    by_cases hb : t - o₀.last_status_change ≥ o₀.transition_time
    · simp [hb]
    · simp [hb]

theorem not_mem_collectDue {t : ℚ} {id : String} {o : Order}
    (hf : should_advance_order o t = some false) :
    ∀ (active : List (String × Order)) (due : List String),
      (keysOf active).Nodup → collectDue t active = some due →
      active.lookup id = some o → id ∉ due := by
  intro active
  induction active with
  | nil =>
    intro due _ _ ho
    simp [List.lookup] at ho
  | cons hd tl ih =>
    intro due hN h ho
    obtain ⟨k₀, o₀⟩ := hd
    simp only [keysOf, List.map_cons, List.nodup_cons] at hN
    by_cases hk : id = k₀
    · subst hk
      rw [lookup_cons_self] at ho
      have heq := Option.some.inj ho
      subst heq
      simp only [collectDue, hf] at h
      cases hc : collectDue t tl with
      | none =>
        rw [hc] at h
        exact Option.noConfusion h
      | some l =>
        rw [hc] at h
        simp only [Bool.false_eq_true, if_false] at h
        have hdue := Option.some.inj h
        subst hdue
        intro hmem
        exact hN.1 ((collectDue_sublist hc).subset hmem)
    · rw [lookup_cons_ne _ _ hk] at ho
      simp only [collectDue] at h
      cases hsa : should_advance_order o₀ t with
      | none =>
        rw [hsa] at h
        exact Option.noConfusion h
      | some b =>
        rw [hsa] at h
        simp only at h
        cases hc : collectDue t tl with
        | none =>
          rw [hc] at h
          exact Option.noConfusion h
        | some l =>
          rw [hc] at h
          simp only at h
          have hdue := Option.some.inj h
          subst hdue
          have hnotl : id ∉ l := ih l (by simpa [keysOf] using hN.2) hc ho
          cases b
          · simpa using hnotl
          · simp only [if_pos rfl]
            intro hmem
            rcases List.mem_cons.mp hmem with hmem | hmem
            · exact hk hmem
            · exact hnotl hmem

theorem tick_spec {s : GenState} (ti : TickIn) (h : LoopInv s) :
    ∃ s', tick s ti = some s' ∧ LoopInv s' := by
  have h1 := createStep_inv ti h
  obtain ⟨⟨hN1, hE1⟩, hEv1⟩ := h1
  have hS3all : ∀ p ∈ (createStep s ti).active_orders, S3 p.2.status := by
    intro p hp
    have hwf : S3 p.2.status ∧ p.2.cancellation_reason = none ∧ p.1 = p.2.order_id := hE1 p hp
    exact hwf.1
  obtain ⟨due, hdue⟩ := collectDue_isSome ti.now hS3all
  have hsubl := collectDue_sublist hdue
  obtain ⟨s', hrun, hInv', _, _, _, _, _⟩ :=
    processUpdates_spec ti.now ti.adv ⟨⟨hN1, hE1⟩, hEv1⟩
      (fun id hid => hsubl.subset hid) (List.Nodup.sublist hsubl hN1)
  refine ⟨s', ?_, hInv'⟩
  simp only [tick]
  rw [hdue]
  exact hrun



theorem reachable_inv {cfg : Config} {st : ℚ} {s : GenState} (h : Reachable cfg st s) :
    LoopInv s := by
  induction h with
  | init fa =>
    exact ⟨⟨by simp [initState, keysOf], by simp [initState]⟩, by simp [initState]⟩
  | step hr hlt htick ih =>
    obtain ⟨s'', htick', hInv'⟩ := tick_spec _ ih
    rw [htick] at htick'
    have heq := Option.some.inj htick'
    subst heq
    exact hInv'

/-! ## Counting: created = shipped + cancelled + still-active -/

theorem length_insertOrReplace_of_not_mem {k : String} {v : Order}
    {l : List (String × Order)} (h : k ∉ keysOf l) :
    (insertOrReplace k v l).length = l.length + 1 := by
  have h1 := keys_insertOrReplace k v l
  rw [if_neg h] at h1
  have h2 := congrArg List.length h1
  simpa [keysOf] using h2

theorem createStep_count {s : GenState} (ti : TickIn)
    (hfresh : ti.now ≥ s.next_order_time → saleOrderId ti.sale ∉ keysOf s.active_orders)
    (hcnt : s.new_orders_count
        = s.shipped_orders_count + s.cancelled_orders_count + s.active_orders.length) :
    (createStep s ti).new_orders_count
        = (createStep s ti).shipped_orders_count + (createStep s ti).cancelled_orders_count
          + (createStep s ti).active_orders.length := by
  unfold createStep
  by_cases hc : ti.now ≥ s.next_order_time
  · rw [if_pos hc]
    have hnm : ({ generate_sale ti.sale ti.now with
        last_status_change := ti.now, transition_time := ti.dwell } : Order).order_id
          ∉ keysOf s.active_orders := hfresh hc
    simp only
    rw [length_insertOrReplace_of_not_mem hnm]
    omega
  · rw [if_neg hc]
    exact hcnt

theorem tick_count {s s' : GenState} {ti : TickIn} (h : LoopInv s)
    (hfresh : ti.now ≥ s.next_order_time → saleOrderId ti.sale ∉ keysOf s.active_orders)
    (htick : tick s ti = some s')
    (hcnt : s.new_orders_count
        = s.shipped_orders_count + s.cancelled_orders_count + s.active_orders.length) :
    s'.new_orders_count
        = s'.shipped_orders_count + s'.cancelled_orders_count + s'.active_orders.length := by
  obtain ⟨⟨hN1, hE1⟩, hEv1⟩ := createStep_inv ti h
  have hS3all : ∀ p ∈ (createStep s ti).active_orders, S3 p.2.status := by
    intro p hp
    have hwf : S3 p.2.status ∧ p.2.cancellation_reason = none ∧ p.1 = p.2.order_id := hE1 p hp
    exact hwf.1
  obtain ⟨due, hdue⟩ := collectDue_isSome ti.now hS3all
  have hsubl := collectDue_sublist hdue
  obtain ⟨s₂, hrun, _, hnoc₂, _, _, _, hsum₂⟩ :=
    processUpdates_spec ti.now ti.adv ⟨⟨hN1, hE1⟩, hEv1⟩
      (fun i hi => hsubl.subset hi) (List.Nodup.sublist hsubl hN1)
  have hcnt1 := createStep_count ti hfresh hcnt
  simp only [tick] at htick
  rw [hdue] at htick
  simp only at htick
  rw [hrun] at htick
  have heq := Option.some.inj htick
  subst heq
  omega



theorem reachableNC_reachable {cfg : Config} {st : ℚ} {s : GenState}
    (h : ReachableNC cfg st s) : Reachable cfg st s := by
  induction h with
  | init fa => exact Reachable.init fa
  | step hr hlt hfresh htick ih => exact Reachable.step ih hlt htick

theorem reachableNC_count {cfg : Config} {st : ℚ} {s : GenState} (h : ReachableNC cfg st s) :
    s.new_orders_count
      = s.shipped_orders_count + s.cancelled_orders_count + s.active_orders.length := by
  induction h with
  | init fa => simp [initState]
  | step hr hlt hfresh htick ih =>
    exact tick_count (reachable_inv (reachableNC_reachable hr)) hfresh htick ih

/-! ## Frame property: orders that are not due are untouched -/

theorem createStep_lookup_ne {s : GenState} {ti : TickIn} {id : String}
    (hnc : saleOrderId ti.sale ≠ id) :
    (createStep s ti).active_orders.lookup id = s.active_orders.lookup id := by
  unfold createStep
  by_cases hc : ti.now ≥ s.next_order_time
  · rw [if_pos hc]
    exact lookup_insertOrReplace_ne _ _ (Ne.symm hnc)
  · rw [if_neg hc]

theorem createStep_events {s : GenState} (ti : TickIn) :
    ∃ es, (createStep s ti).events = s.events ++ es ∧
      ∀ e ∈ es, e.order_id = saleOrderId ti.sale := by
  unfold createStep
  by_cases hc : ti.now ≥ s.next_order_time
  · rw [if_pos hc]
    refine ⟨[_], rfl, ?_⟩
    intro e he
    simp only [List.mem_singleton] at he
    subst he
    rfl
  · rw [if_neg hc]
    exact ⟨[], by simp, by simp⟩

theorem tick_frame {s : GenState} {ti : TickIn} {id : String} {o : Order}
    (h : LoopInv s) (ho : s.active_orders.lookup id = some o)
    (hnd : ¬ ti.now - o.last_status_change ≥ o.transition_time)
    (hnc : saleOrderId ti.sale ≠ id) :
    ∃ s', tick s ti = some s' ∧ LoopInv s' ∧
      s'.active_orders.lookup id = some o ∧
      ∃ es, s'.events = s.events ++ es ∧ ∀ e ∈ es, e.order_id ≠ id := by
  obtain ⟨⟨hN1, hE1⟩, hEv1⟩ := createStep_inv ti h
  have hS3all : ∀ p ∈ (createStep s ti).active_orders, S3 p.2.status := by
    intro p hp
    have hwf : S3 p.2.status ∧ p.2.cancellation_reason = none ∧ p.1 = p.2.order_id := hE1 p hp
    exact hwf.1
  obtain ⟨due, hdue⟩ := collectDue_isSome ti.now hS3all
  have hsubl := collectDue_sublist hdue
  have ho1 : (createStep s ti).active_orders.lookup id = some o := by
    rw [createStep_lookup_ne hnc]
    exact ho
  obtain ⟨⟨_, hE⟩, _⟩ := h
  have hwfo : S3 o.status ∧ o.cancellation_reason = none ∧ id = o.order_id :=
    hE _ (mem_of_lookup_eq_some ho)
  have hf : should_advance_order o ti.now = some false := by
    rw [should_advance_order_S3 o ti.now hwfo.1, decide_eq_false hnd]
  have hid_not : id ∉ due := not_mem_collectDue hf _ due hN1 hdue ho1
  obtain ⟨s₂, hrun, hInv₂, _, _, hlook₂, ⟨es₂, hes₂, hesid₂⟩, _⟩ :=
    processUpdates_spec ti.now ti.adv ⟨⟨hN1, hE1⟩, hEv1⟩
      (fun i hi => hsubl.subset hi) (List.Nodup.sublist hsubl hN1)
  refine ⟨s₂, ?_, hInv₂, ?_, ?_⟩
  · simp only [tick]
    rw [hdue]
    exact hrun
  · rw [hlook₂ id hid_not]
    exact ho1
  · obtain ⟨es₀, hes₀, hes₀id⟩ := createStep_events ti
    refine ⟨es₀ ++ es₂, ?_, ?_⟩
    · rw [hes₂, hes₀, List.append_assoc]
    · intro e he
      rcases List.mem_append.mp he with he | he
      · rw [hes₀id e he]
        exact hnc
      · intro hcon
        exact hid_not (hcon ▸ hesid₂ e he)

theorem runTicks_frame {cfg : Config} {st : ℚ} {id : String} {o : Order} :
    ∀ (ts : List TickIn) (s : GenState), LoopInv s →
      s.active_orders.lookup id = some o →
      (∀ ti ∈ ts, ¬ ti.now - o.last_status_change ≥ o.transition_time) →
      (∀ ti ∈ ts, saleOrderId ti.sale ≠ id) →
      ∃ s', runTicks cfg st s ts = some s' ∧ LoopInv s' ∧
        s'.active_orders.lookup id = some o ∧
        ∃ es, s'.events = s.events ++ es ∧ ∀ e ∈ es, e.order_id ≠ id := by
  intro ts
  induction ts with
  | nil =>
    intro s h ho _ _
    exact ⟨s, rfl, h, ho, [], by simp, by simp⟩
  | cons ti rest ih =>
    intro s h ho hnd hnc
    by_cases hstop : ti.now - st ≥ duration_seconds cfg
    · refine ⟨s, ?_, h, ho, [], by simp, by simp⟩
      simp [runTicks, hstop]
    · obtain ⟨s₁, htick, hInv₁, ho₁, es₁, hes₁, hes₁id⟩ :=
        tick_frame h ho (hnd ti (List.mem_cons_self _ _)) (hnc ti (List.mem_cons_self _ _))
      obtain ⟨s₂, hrun, hInv₂, ho₂, es₂, hes₂, hes₂id⟩ :=
        ih s₁ hInv₁ ho₁ (fun x hx => hnd x (List.mem_cons_of_mem _ hx))
          (fun x hx => hnc x (List.mem_cons_of_mem _ hx))
      refine ⟨s₂, ?_, hInv₂, ho₂, es₁ ++ es₂, ?_, ?_⟩
      · simp only [runTicks, if_neg hstop, htick]
        exact hrun
      · rw [hes₂, hes₁, List.append_assoc]
      · intro e he
        rcases List.mem_append.mp he with he | he
        · exact hes₁id e he
        · exact hes₂id e he

theorem w1State_reachable : Reachable cfgX 0 w1State :=
  @Reachable.step cfgX 0 (initState 0 1) w1State tickA (Reachable.init 1)
    (by with_unfolding_all decide) (by with_unfolding_all decide)

theorem w1State_reachableNC : ReachableNC cfgX 0 w1State :=
  @ReachableNC.step cfgX 0 (initState 0 1) w1State tickA (ReachableNC.init 1)
    (by with_unfolding_all decide) (fun _ => by with_unfolding_all decide)
    (by with_unfolding_all decide)

/-! ## Claim C1 -/

/-- C1: over any session, an order's status only ever changes along the
single forward steps pending → confirmed → processing → shipped, or sideways
into cancelled from a non-terminal state, and never moves out of shipped or
cancelled: every order is created at "pending"; `should_advance_order`
refuses to advance a shipped or cancelled order (so the loop never calls
`advance_order_status` on one); the registry of a reachable state holds no
terminal order; and any transition `advance_order_status` performs on a
registered order is a single forward step of the flow or a cancellation of a
non-terminal order (never a backward move, never a skip). -/
theorem order_status_forward_only :
    (∀ (d : SaleDraw) (now : ℚ), (generate_sale d now).status = "pending") ∧
    (∀ (o : Order) (t : ℚ), o.status = "shipped" ∨ o.status = "cancelled" →
        should_advance_order o t = some false) ∧
    (∀ (cfg : Config) (st : ℚ) (s : GenState), Reachable cfg st s →
      ∀ p ∈ s.active_orders,
        (p.2.status ≠ "shipped" ∧ p.2.status ≠ "cancelled") ∧
        ∀ (dr : AdvDraw) (t : ℚ) (o' : Order),
          advance_order_status p.2 dr t = some o' →
            nextPair p.2.status o'.status ∨
              (S3 p.2.status ∧ o'.status = "cancelled")) := by
  refine ⟨fun d now => rfl, should_advance_order_terminal, ?_⟩
  intro cfg st s hs p hp
  obtain ⟨⟨_, hE⟩, _⟩ := reachable_inv hs
  have hwf : S3 p.2.status ∧ p.2.cancellation_reason = none ∧ p.1 = p.2.order_id := hE p hp
  constructor
  · rcases hwf.1 with h | h | h <;> rw [h] <;> exact ⟨by decide, by decide⟩
  · intro dr t o' ha
    obtain ⟨_, hc⟩ := advance_order_status_spec hwf.1 ha
    rcases hc with ⟨hcan, _⟩ | ⟨hnp, _⟩
    · exact Or.inr ⟨hwf.1, hcan⟩
    · exact Or.inl hnp

/-- Witness for C1, at the one-order session state `w1State` and the concrete
advance of its registered order at time 11. -/
theorem order_status_forward_only_witness :
    (generate_sale saleA 1).status = "pending" ∧
    should_advance_order (cancel_order ord1 0 2) 5 = some false ∧
    (ord1.status ≠ "shipped" ∧ ord1.status ≠ "cancelled") ∧
    (nextPair ord1.status ord1adv.status ∨ (S3 ord1.status ∧ ord1adv.status = "cancelled")) := by
  have hreach : Reachable cfgX 0 w1State := w1State_reachable
  have h3 := order_status_forward_only.2.2 cfgX 0 w1State hreach ("ORD-10000000", ord1)
      (by with_unfolding_all decide)
  exact ⟨order_status_forward_only.1 saleA 1,
    order_status_forward_only.2.1 _ 5 (Or.inr (by with_unfolding_all decide)),
    h3.1, h3.2 advDraw1 11 ord1adv (by with_unfolding_all decide)⟩

/-! ## Claim C2 -/

/-- C2 (amended): in any session in which every admission draws an identifier
that is not currently a key of the registry (which holds in particular when
all identifier draws of the session are distinct), every reachable state —
hence the state at session end — satisfies
created = shipped + cancelled + still-active.  Unamended the claim fails:
when an admission reuses a live identifier, the new order silently overwrites
the registry entry and the overwritten order is counted as created but can
never be counted shipped, cancelled, or active (see the counterexample). -/
theorem created_equals_shipped_cancelled_active (cfg : Config) (st : ℚ) (s : GenState)
    (h : ReachableNC cfg st s) :
    s.new_orders_count
      = s.shipped_orders_count + s.cancelled_orders_count + s.active_orders.length :=
  reachableNC_count h

/-- Witness for C2 at the one-order session state `w1State`. -/
theorem created_equals_shipped_cancelled_active_witness :
    w1State.new_orders_count
      = w1State.shipped_orders_count + w1State.cancelled_orders_count
        + w1State.active_orders.length := by
  have hnc : ReachableNC cfgX 0 w1State := w1State_reachableNC
  exact created_equals_shipped_cancelled_active cfgX 0 w1State hnc

/-- C2 counterexample: the two-admission session in which both orders draw
identifier ORD-10000000 ends with created = 2 but
shipped + cancelled + active = 0 + 0 + 1. -/
theorem created_count_collision_cex :
    run_generator cfgX 0 1 [tickA, tickB] = some cexState ∧
    cexState.new_orders_count = 2 ∧
    cexState.shipped_orders_count = 0 ∧
    cexState.cancelled_orders_count = 0 ∧
    cexState.active_orders.length = 1 ∧
    cexState.new_orders_count ≠
      cexState.shipped_orders_count + cexState.cancelled_orders_count
        + cexState.active_orders.length := by
  refine ⟨by with_unfolding_all decide, by with_unfolding_all decide,
    by with_unfolding_all decide, by with_unfolding_all decide,
    by with_unfolding_all decide, by with_unfolding_all decide⟩

/-! ## Claim C3 -/

/-- C3 (amended): at every reachable tick boundary the registry holds only
non-terminal orders — equivalently, an order whose status becomes shipped or
cancelled in a tick is removed within that same tick and no order is ever
present in the registry in a terminal state — and an admission stores the new
pending order in the registry under its identifier.  The remaining direction
of the original claim (a non-terminal order is always still registered) fails
when a later admission draws the same identifier and evicts it (see the
counterexample). -/
theorem registry_nonterminal_discipline :
    (∀ (cfg : Config) (st : ℚ) (s : GenState), Reachable cfg st s →
       ∀ p ∈ s.active_orders, p.2.status ≠ "shipped" ∧ p.2.status ≠ "cancelled") ∧
    (∀ (s : GenState) (ti : TickIn), ti.now ≥ s.next_order_time →
       (createStep s ti).active_orders.lookup (saleOrderId ti.sale)
         = some { generate_sale ti.sale ti.now with
                    last_status_change := ti.now, transition_time := ti.dwell }) := by
  constructor
  · intro cfg st s hs p hp
    obtain ⟨⟨_, hE⟩, _⟩ := reachable_inv hs
    have hwf : S3 p.2.status ∧ p.2.cancellation_reason = none ∧ p.1 = p.2.order_id := hE p hp
    rcases hwf.1 with h | h | h <;> rw [h] <;> exact ⟨by decide, by decide⟩
  · intro s ti hc
    unfold createStep
    rw [if_pos hc]
    exact lookup_insertOrReplace_self _ _ _

/-- Witness for C3: the registered order of `w1State` is non-terminal, and
the admission of `tickA` stores the new pending order in the registry. -/
theorem registry_nonterminal_discipline_witness :
    (ord1.status ≠ "shipped" ∧ ord1.status ≠ "cancelled") ∧
    (createStep (initState 0 1) tickA).active_orders.lookup (saleOrderId tickA.sale)
      = some { generate_sale tickA.sale tickA.now with
                 last_status_change := tickA.now, transition_time := tickA.dwell } := by
  have hreach : Reachable cfgX 0 w1State := w1State_reachable
  exact ⟨registry_nonterminal_discipline.1 cfgX 0 w1State hreach ("ORD-10000000", ord1)
      (by with_unfolding_all decide),
    registry_nonterminal_discipline.2 (initState 0 1) tickA (by with_unfolding_all decide)⟩

/-- C3 counterexample: after the collision session the first created order
(customer CUST-100000) still has the non-terminal status "pending" — its only
emitted event is its pending creation event — yet the registry no longer
contains it: the single registry entry under ORD-10000000 is the second order
(customer CUST-100001). -/
theorem registry_nonterminal_cex :
    run_generator cfgX 0 1 [tickA, tickB] = some cexState ∧
    cexState.events.map (fun e => (e.order_id, e.customer_id, e.status))
      = [("ORD-10000000", "CUST-100000", "pending"),
         ("ORD-10000000", "CUST-100001", "pending")] ∧
    cexState.active_orders.map (fun p => (p.1, p.2.customer_id))
      = [("ORD-10000000", "CUST-100001")] ∧
    cexState.new_orders_count = 2 ∧
    cexState.active_orders.length = 1 := by
  refine ⟨by with_unfolding_all decide, by with_unfolding_all decide,
    by with_unfolding_all decide, by with_unfolding_all decide,
    by with_unfolding_all decide⟩

/-! ## Claim C4 -/

/-- C4: `cancellation_reason` is present in an order (and in its emitted
payload) exactly when its status is cancelled, and the recorded reason
belongs to the reason set of the (cancellable) state the order was in
immediately before cancellation: freshly created orders carry no reason;
registered orders carry no reason; in every emitted event the reason is
present iff the event's status is cancelled, and any present reason comes
from the reason set of one of the three cancellable statuses; and
`cancel_order`, applied to an order in a cancellable status, marks it
cancelled with a reason drawn from exactly that status's reason set. -/
theorem cancellation_reason_iff_cancelled :
    (∀ (d : SaleDraw) (now : ℚ), (generate_sale d now).cancellation_reason = none) ∧
    (∀ (cfg : Config) (st : ℚ) (s : GenState), Reachable cfg st s →
       (∀ p ∈ s.active_orders, p.2.cancellation_reason = none) ∧
       (∀ e ∈ s.events,
          (e.cancellation_reason ≠ none ↔ e.status = "cancelled") ∧
          ("cancellation_reason" ∈ output_keys e ↔ e.status = "cancelled") ∧
          (∀ r, e.cancellation_reason = some r → ∃ pre, S3 pre ∧ r ∈ reasonsFor pre))) ∧
    (∀ (o : Order) (n : Nat) (t : ℚ), S3 o.status →
       (cancel_order o n t).status = "cancelled" ∧
       ∃ r, (cancel_order o n t).cancellation_reason = some r ∧ r ∈ reasonsFor o.status) := by
  refine ⟨fun d now => rfl, ?_, ?_⟩
  · intro cfg st s hs
    obtain ⟨⟨_, hE⟩, hEv⟩ := reachable_inv hs
    constructor
    · intro p hp
      have hwf : S3 p.2.status ∧ p.2.cancellation_reason = none ∧ p.1 = p.2.order_id := hE p hp
      exact hwf.2.1
    · intro e he
      have hw : (e.cancellation_reason = none ↔ e.status ≠ "cancelled") ∧
          ∀ r, e.cancellation_reason = some r → ∃ pre, S3 pre ∧ r ∈ reasonsFor pre := hEv e he
      have hiff : e.cancellation_reason ≠ none ↔ e.status = "cancelled" := by
        constructor
        · intro hne
          by_contra hcon
          exact hne (hw.1.mpr hcon)
        · intro hc hn
          exact (hw.1.mp hn) hc
      refine ⟨hiff, ?_, hw.2⟩
      cases hr : e.cancellation_reason with
      | none =>
        constructor
        · intro hmem
          refine absurd hmem ?_
          simp only [output_keys, orderKeys, hr, Option.isSome_none]
          decide
        · intro hc
          exact absurd hr (hiff.mpr hc)
      | some r =>
        constructor
        · intro _
          refine hiff.mp ?_
          rw [hr]
          exact fun hx => Option.noConfusion hx
        · intro _
          simp only [output_keys, orderKeys, hr, Option.isSome_some]
          decide
  · intro o n t hS3
    obtain ⟨h1, _, h3⟩ := cancel_order_spec o n t hS3
    exact ⟨h1, h3⟩

/-- Witness for C4 at the one-order session state `w1State`, its creation
event, and a concrete cancellation of the registered pending order. -/
theorem cancellation_reason_iff_cancelled_witness :
    (generate_sale saleA 1).cancellation_reason = none ∧
    ord1.cancellation_reason = none ∧
    (ev1.cancellation_reason ≠ none ↔ ev1.status = "cancelled") ∧
    ("cancellation_reason" ∈ output_keys ev1 ↔ ev1.status = "cancelled") ∧
    (cancel_order ord1 0 2).status = "cancelled" ∧
    (∃ r, (cancel_order ord1 0 2).cancellation_reason = some r
       ∧ r ∈ reasonsFor ord1.status) := by
  have hreach : Reachable cfgX 0 w1State := w1State_reachable
  have h2 := (cancellation_reason_iff_cancelled.2.1 cfgX 0 w1State hreach).2 ev1
      (by with_unfolding_all decide)
  have hcan := cancellation_reason_iff_cancelled.2.2 ord1 0 2 (by with_unfolding_all decide)
  exact ⟨cancellation_reason_iff_cancelled.1 saleA 1,
    (cancellation_reason_iff_cancelled.2.1 cfgX 0 w1State hreach).1 ("ORD-10000000", ord1)
      (by with_unfolding_all decide),
    h2.1, h2.2.1, hcan.1, hcan.2⟩

/-! ## Claim C5 -/

/-- C5 (code bug): `generate_order_id`'s own docstring promises a unique
order ID, but the implementation is a bare `random.randint` draw with no
collision avoidance.  In the session whose two admission draws are both 0,
two distinct orders (customers CUST-100000 and CUST-100001) are created with
the identical identifier ORD-10000000, and the second silently overwrites the
first in the registry. -/
theorem order_id_collision_on_equal_draws :
    generate_order_id 0 = "ORD-10000000" ∧
    saleA.orderIdDraw = saleB.orderIdDraw ∧
    run_generator cfgX 0 1 [tickA, tickB] = some cexState ∧
    cexState.new_orders_count = 2 ∧
    cexState.events.map (fun e => (e.order_id, e.customer_id))
      = [("ORD-10000000", "CUST-100000"), ("ORD-10000000", "CUST-100001")] ∧
    cexState.active_orders.length = 1 := by
  refine ⟨by with_unfolding_all decide, by with_unfolding_all decide,
    by with_unfolding_all decide, by with_unfolding_all decide,
    by with_unfolding_all decide, by with_unfolding_all decide⟩

/-! ## Claim C6 -/

theorem runTicks_duration_only {cfg cfg' : Config}
    (h : cfg.duration_minutes = cfg'.duration_minutes) (st : ℚ) :
    ∀ (ts : List TickIn) (s : GenState), runTicks cfg st s ts = runTicks cfg' st s ts := by
  intro ts
  induction ts with
  | nil =>
    intro s
    rfl
  | cons ti rest ih =>
    intro s
    have hd : duration_seconds cfg = duration_seconds cfg' := by
      unfold duration_seconds
      rw [h]
    simp only [runTicks, hd]
    by_cases hstop : ti.now - st ≥ duration_seconds cfg'
    · rw [if_pos hstop, if_pos hstop]
    · rw [if_neg hstop, if_neg hstop]
      cases htk : tick s ti with
      | none => simp [htk]
      | some s' =>
        simp only [htk]
        exact ih s'

/-- C6 (amended): the only validation `main` performs before entering the
loop is of the Kafka flag pairing — `--kafka-bootstrap-servers` and
`--kafka-topic` must be given together, otherwise the program aborts via
`parser.error` — and the loop's behaviour does not depend on the delay bounds
at all (`random.uniform` accepts a reversed range without raising), so a
configuration with max_delay < min_delay is not rejected and the event loop
starts normally (see the counterexample). -/
theorem startup_validation_checks_only_kafka_pairing :
    (∀ a : Args, (a.kafka_bootstrap_servers.isSome ↔ a.kafka_topic.isSome) →
        validate_args a = Except.ok ()) ∧
    (∀ a : Args, ¬ (a.kafka_bootstrap_servers.isSome ↔ a.kafka_topic.isSome) →
        (validate_args a).isOk = false) ∧
    (∀ cfg cfg' : Config, cfg.duration_minutes = cfg'.duration_minutes →
        ∀ (st fa : ℚ) (ts : List TickIn),
          run_generator cfg st fa ts = run_generator cfg' st fa ts) := by
  refine ⟨?_, ?_, ?_⟩
  · intro a h
    have hA : ¬(a.kafka_bootstrap_servers.isSome ∧ ¬ a.kafka_topic.isSome) := by
      rintro ⟨h1, h2⟩
      exact h2 (h.mp h1)
    have hB : ¬(a.kafka_topic.isSome ∧ ¬ a.kafka_bootstrap_servers.isSome) := by
      rintro ⟨h1, h2⟩
      exact h2 (h.mpr h1)
    unfold validate_args
    rw [if_neg hA, if_neg hB]
  · intro a h
    unfold validate_args
    by_cases hs : a.kafka_bootstrap_servers.isSome
    · by_cases ht : a.kafka_topic.isSome
      · exact absurd (Iff.intro (fun _ => ht) (fun _ => hs)) h
      · rw [if_pos ⟨hs, ht⟩]
        rfl
    · by_cases ht : a.kafka_topic.isSome
      · rw [if_neg (fun hx : a.kafka_bootstrap_servers.isSome ∧ ¬ a.kafka_topic.isSome =>
              hs hx.1), if_pos ⟨ht, hs⟩]
        rfl
      · exact absurd (Iff.intro (fun hx => absurd hx hs) (fun hx => absurd hx ht)) h
  · intro cfg cfg' h st fa ts
    unfold run_generator
    exact runTicks_duration_only h st ts _

/-- Witness for C6: a matched Kafka pair validates, a mismatched one is
rejected, and the run is identical under the normal and the reversed delay
range. -/
theorem startup_validation_checks_only_kafka_pairing_witness :
    validate_args argsKafka = Except.ok () ∧
    (validate_args argsMismatch).isOk = false ∧
    run_generator cfgX 0 1 [tickA] = run_generator cfgY 0 1 [tickA] :=
  ⟨startup_validation_checks_only_kafka_pairing.1 argsKafka (by decide),
    startup_validation_checks_only_kafka_pairing.2.1 argsMismatch (by decide),
    startup_validation_checks_only_kafka_pairing.2.2 cfgX cfgY rfl 0 1 [tickA]⟩

/-- C6 counterexample: with min_delay = 10 and max_delay = 1 (a reversed
range) startup validation succeeds and the event loop runs and admits an
order — the program does not abort before the loop as the claim states. -/
theorem reversed_delay_range_not_validated :
    argsBad.max_delay < argsBad.min_delay ∧
    validate_args argsBad = Except.ok () ∧
    (run_generator cfgBad 0 1 [tickA]).isSome = true ∧
    (run_generator cfgBad 0 1 [tickA]).map (fun s => s.new_orders_count) = some 1 := by
  refine ⟨by decide, rfl, by with_unfolding_all decide, by with_unfolding_all decide⟩

/-! ## Claim C7 -/

/-- C7 (amended): a session configured with duration 0 minutes exits on its
first tick without admitting any order: the run ends in its initial state —
zero orders created, zero events emitted, all statistics counters zero — and
the success-rate and cancellation-rate computations are guarded by
`created > 0` and yield 0 without dividing.  The throughput computation
`created / (elapsed_time / 60)` is NOT guarded: it yields 0 for any nonzero
wall-clock elapsed time, but divides by zero when the shutdown clock reading
equals the loop-start reading — which nothing in the code prevents (see the
counterexample). -/
theorem duration_zero_session (cfg : Config) (st fa : ℚ) (ts : List TickIn)
    (hd : cfg.duration_minutes = 0) (hm : ∀ ti ∈ ts, st ≤ ti.now) :
    run_generator cfg st fa ts = some (initState st fa) ∧
    (initState st fa).new_orders_count = 0 ∧
    (initState st fa).events = [] ∧
    (initState st fa).status_updates_count = 0 ∧
    (initState st fa).shipped_orders_count = 0 ∧
    (initState st fa).cancelled_orders_count = 0 ∧
    success_rate (initState st fa) = 0 ∧
    cancellation_rate (initState st fa) = 0 ∧
    (∀ endTime : ℚ, endTime ≠ st →
        average_rate (initState st fa) (endTime - st) = some 0) ∧
    average_rate (initState st fa) 0 = none := by
  refine ⟨?_, rfl, rfl, rfl, rfl, rfl, rfl, rfl, ?_, ?_⟩
  · cases ts with
    | nil => rfl
    | cons ti rest =>
      have hz : duration_seconds cfg = 0 := by
        unfold duration_seconds
        rw [hd]
        norm_num
      have h0 : ti.now - st ≥ duration_seconds cfg := by
        rw [hz]
        have := hm ti (List.mem_cons_self _ _)
        linarith
      unfold run_generator
      simp only [runTicks]
      rw [if_pos h0]
  · intro endTime hne
    have hdz : ¬ ((endTime - st) / 60 = 0) := by
      intro hc
      rw [div_eq_zero_iff] at hc
      rcases hc with hc | hc
      · exact hne (sub_eq_zero.mp hc)
      · norm_num at hc
    unfold average_rate
    rw [if_neg hdz]
    simp [initState]
  · unfold average_rate
    norm_num

/-- Witness for C7 at an explicit 0-minute session with one pending tick
input, a nonzero shutdown elapsed time of 7 seconds, and the zero-elapsed
division. -/
theorem duration_zero_session_witness :
    run_generator cfg0 0 1 [tickA] = some (initState 0 1) ∧
    (initState (0:ℚ) 1).new_orders_count = 0 ∧
    (initState (0:ℚ) 1).events = [] ∧
    (initState (0:ℚ) 1).status_updates_count = 0 ∧
    (initState (0:ℚ) 1).shipped_orders_count = 0 ∧
    (initState (0:ℚ) 1).cancelled_orders_count = 0 ∧
    success_rate (initState 0 1) = 0 ∧
    cancellation_rate (initState 0 1) = 0 ∧
    average_rate (initState (0:ℚ) 1) ((7:ℚ) - 0) = some 0 ∧
    average_rate (initState (0:ℚ) 1) 0 = none := by
  have h := duration_zero_session cfg0 0 1 [tickA] rfl
    (by
      intro ti hti
      rw [List.mem_singleton] at hti
      subst hti
      norm_num [tickA])
  exact ⟨h.1, h.2.1, h.2.2.1, h.2.2.2.1, h.2.2.2.2.1, h.2.2.2.2.2.1,
    h.2.2.2.2.2.2.1, h.2.2.2.2.2.2.2.1,
    h.2.2.2.2.2.2.2.2.1 7 (by norm_num), h.2.2.2.2.2.2.2.2.2⟩

/-- C7 counterexample: in the 0-minute session the loop does exit immediately
with everything zero, but when the shutdown wall-clock reading equals the
loop-start reading (elapsed_time = 0, which no code path prevents) the
unguarded throughput division `created / (elapsed_time / 60)` divides by
zero — so "no division by zero occurs in any rate computation at shutdown"
fails at the throughput computation. -/
theorem duration_zero_throughput_division_cex :
    run_generator cfg0 0 1 [tickA] = some (initState 0 1) ∧
    (initState (0:ℚ) 1).new_orders_count = 0 ∧
    success_rate (initState (0:ℚ) 1) = 0 ∧
    cancellation_rate (initState (0:ℚ) 1) = 0 ∧
    average_rate (initState (0:ℚ) 1) ((0:ℚ) - 0) = none := by
  refine ⟨by with_unfolding_all decide, rfl, rfl, rfl, ?_⟩
  unfold average_rate
  norm_num

/-! ## Claim C8 -/

/-- C8: every emitted event payload, for creation and for status-update
events alike, contains only the order's externally visible fields: the
internal scheduling fields `last_status_change` and `transition_time` are
absent from the payload keys, which are exactly the twelve visible creation
fields plus `cancellation_reason` exactly when the order carries one. -/
theorem payload_excludes_internal_fields (cfg : Config) (st : ℚ) (s : GenState)
    (h : Reachable cfg st s) :
    ∀ e ∈ s.events,
      "last_status_change" ∉ output_keys e ∧
      "transition_time" ∉ output_keys e ∧
      output_keys e
        = ["order_id", "timestamp", "product_id", "product_name", "quantity",
           "price", "total", "customer_id", "customer_email", "payment_method",
           "shipping_address", "status"] ++
          (if e.cancellation_reason.isSome then ["cancellation_reason"] else []) := by
  intro e _
  cases hr : e.cancellation_reason with
  | none =>
    refine ⟨?_, ?_, ?_⟩ <;>
      · simp only [output_keys, orderKeys, hr, Option.isSome_none]
        decide
  | some r =>
    refine ⟨?_, ?_, ?_⟩ <;>
      · simp only [output_keys, orderKeys, hr, Option.isSome_some]
        decide

/-- Witness for C8 at the creation event of the one-order session. -/
theorem payload_excludes_internal_fields_witness :
    "last_status_change" ∉ output_keys ev1 ∧
    "transition_time" ∉ output_keys ev1 ∧
    output_keys ev1
      = ["order_id", "timestamp", "product_id", "product_name", "quantity",
         "price", "total", "customer_id", "customer_email", "payment_method",
         "shipping_address", "status"] ++
        (if ev1.cancellation_reason.isSome then ["cancellation_reason"] else []) :=
  payload_excludes_internal_fields cfgX 0 w1State w1State_reachable ev1
    (by with_unfolding_all decide)

/-! ## Claim C9 -/

/-- C9: a registered order whose elapsed time in its current state is
strictly below its drawn dwell duration is left completely unchanged — the
registry still holds the identical order record — and zero events are emitted
for it, across any number of consecutive ticks, provided every tick happens
while the order is still not due and no admission in those ticks draws its
identifier. -/
theorem not_due_order_untouched (cfg : Config) (st : ℚ) (s : GenState) (id : String)
    (o : Order) (ts : List TickIn)
    (h : Reachable cfg st s)
    (ho : s.active_orders.lookup id = some o)
    (hnd : ∀ ti ∈ ts, ti.now - o.last_status_change < o.transition_time)
    (hnc : ∀ ti ∈ ts, saleOrderId ti.sale ≠ id) :
    ((runTicks cfg st s ts).bind (fun s' => s'.active_orders.lookup id)) = some o ∧
    (runTicks cfg st s ts).map
        (fun s' => s'.events.filter (fun e => e.order_id == id))
      = some (s.events.filter (fun e => e.order_id == id)) := by
  obtain ⟨s', hrun, _, ho', es, hes, hesid⟩ :=
    runTicks_frame ts s (reachable_inv h) ho
      (fun ti hti => not_le.mpr (hnd ti hti)) hnc
  rw [hrun]
  refine ⟨ho', ?_⟩
  have hfe : s'.events.filter (fun e => e.order_id == id)
      = s.events.filter (fun e => e.order_id == id) := by
    rw [hes, List.filter_append]
    have hnil : es.filter (fun e => e.order_id == id) = [] := by
      rw [List.filter_eq_nil_iff]
      intro e he
      simp only [beq_iff_eq]
      exact hesid e he
    rw [hnil, List.append_nil]
  rw [Option.map_some', hfe]

/-- Witness for C9: the pending order of the one-order session is untouched
by a tick at time 2 (elapsed 1 < dwell 20) that admits nothing for its
identifier. -/
theorem not_due_order_untouched_witness :
    ((runTicks cfgX 0 w1State [tickC]).bind
        (fun s' => s'.active_orders.lookup "ORD-10000000")) = some ord1 ∧
    (runTicks cfgX 0 w1State [tickC]).map
        (fun s' => s'.events.filter (fun e => e.order_id == "ORD-10000000"))
      = some (w1State.events.filter (fun e => e.order_id == "ORD-10000000")) :=
  not_due_order_untouched cfgX 0 w1State "ORD-10000000" ord1 [tickC]
    w1State_reachable (by with_unfolding_all decide)
    (by
      intro ti hti
      rw [List.mem_singleton] at hti
      subst hti
      with_unfolding_all decide)
    (by
      intro ti hti
      rw [List.mem_singleton] at hti
      subst hti
      with_unfolding_all decide)

/-! ## Claim C10 -/

theorem STATUS_TRANSITION_TIMES_keys {st : String} {pr : ℚ × ℚ}
    (h : STATUS_TRANSITION_TIMES.lookup st = some pr) : S3 st := by
  by_cases h1 : st = "pending"
  · exact Or.inl h1
  · by_cases h2 : st = "confirmed"
    · exact Or.inr (Or.inl h2)
    · by_cases h3 : st = "processing"
      · exact Or.inr (Or.inr h3)
      · have hn : STATUS_TRANSITION_TIMES.lookup st = none := by
          simp only [STATUS_TRANSITION_TIMES, List.lookup,
            beq_eq_false_iff_ne.mpr (h1 : st ≠ "pending"),
            beq_eq_false_iff_ne.mpr (h2 : st ≠ "confirmed"),
            beq_eq_false_iff_ne.mpr (h3 : st ≠ "processing")]
        rw [hn] at h
        exact Option.noConfusion h

/-- C10: `get_next_status` raises (returns `none`) on "cancelled", which is
absent from the flow list, and the dwell table has no "cancelled" entry
either; but `should_advance_order` answers `some false` for any shipped or
cancelled order before reaching its table subscript, a true answer forces the
status to be pending, confirmed or processing — where both lookups succeed
and `advance_order_status` cannot fail — and consequently a tick from any
reachable loop state never hits a failure branch. -/
theorem terminal_lookup_failures_unreachable :
    (get_next_status "cancelled" = none ∧
      STATUS_TRANSITION_TIMES.lookup "cancelled" = none) ∧
    (∀ (o : Order) (t : ℚ), o.status = "shipped" ∨ o.status = "cancelled" →
        should_advance_order o t = some false) ∧
    (∀ (o : Order) (t : ℚ), should_advance_order o t = some true →
        S3 o.status ∧ (get_next_status o.status).isSome ∧
        (STATUS_TRANSITION_TIMES.lookup o.status).isSome ∧
        ∀ dr : AdvDraw, (advance_order_status o dr t).isSome) ∧
    (∀ (cfg : Config) (st : ℚ) (s : GenState), Reachable cfg st s →
        ∀ ti : TickIn, (tick s ti).isSome) := by
  refine ⟨⟨by decide, by decide⟩, should_advance_order_terminal, ?_, ?_⟩
  · intro o t hsa
    have hS3 : S3 o.status := by
      unfold should_advance_order at hsa
      by_cases hg : o.status = "shipped" ∨ o.status = "cancelled"
      · rw [if_pos hg] at hsa
        exact absurd (Option.some.inj hsa) (by decide)
      · rw [if_neg hg] at hsa
        cases hl : STATUS_TRANSITION_TIMES.lookup o.status with
        | none =>
          rw [hl] at hsa
          exact Option.noConfusion hsa
        | some pr => exact STATUS_TRANSITION_TIMES_keys hl
    obtain ⟨nxt, hg, _⟩ := get_next_status_S3 o.status hS3
    refine ⟨hS3, by rw [hg]; rfl, ?_, fun dr => advance_order_status_isSome o dr t hS3⟩
    rcases hS3 with h | h | h <;> rw [h] <;> decide
  · intro cfg st s hs ti
    obtain ⟨s', htick, _⟩ := tick_spec ti (reachable_inv hs)
    rw [htick]
    rfl

/-- Witness for C10: the failure facts for "cancelled", a cancelled order
refused by `should_advance_order`, the due pending order of the one-order
session advancing safely, and a whole tick from that reachable state
succeeding. -/
theorem terminal_lookup_failures_unreachable_witness :
    (get_next_status "cancelled" = none ∧
      STATUS_TRANSITION_TIMES.lookup "cancelled" = none) ∧
    should_advance_order (cancel_order ord1 0 2) 5 = some false ∧
    (S3 ord1.status ∧ (get_next_status ord1.status).isSome ∧
      (STATUS_TRANSITION_TIMES.lookup ord1.status).isSome ∧
      (advance_order_status ord1 advDraw1 21).isSome) ∧
    (tick w1State tickC).isSome := by
  have h3 := terminal_lookup_failures_unreachable.2.2.1 ord1 21
      (by with_unfolding_all decide)
  exact ⟨terminal_lookup_failures_unreachable.1,
    terminal_lookup_failures_unreachable.2.1 _ 5 (Or.inr (by with_unfolding_all decide)),
    ⟨h3.1, h3.2.1, h3.2.2.1, h3.2.2.2 advDraw1⟩,
    terminal_lookup_failures_unreachable.2.2.2 cfgX 0 w1State w1State_reachable tickC⟩
